import Mathlib

/-!
# Git Town: configuration commands, checkout-history step and test fixture

A shallow embedding of

* `src/steps/preserve_checkout_history_step.go`
* `src/cmd/config_mainbranch.go`, `src/cmd/config_push_hook.go`
* `src/validate/enter_perennial_branches.go`
* `test/fixture/fixture.go`

Go values of type `error` are `Option String` (`none` is `nil`).  A Go call
that returns `(value, error)` returns a pair here, so that a value that comes
with an error can still be read, as Go allows.  The collaborators whose code
is not part of these files (the git backend, the configuration store, the
dialogs, the test runtime) are records of operations over a state type `σ`:
queries read the state, mutations return the state they leave behind.
-/

namespace GitTown

/-- A Go `error`: `none` is `nil`, `some msg` is an error with message `msg`. -/
abbrev GoError := Option String

/-- The configuration store `config.GitTown`, whose code is outside these
files: the accessors the commands call. -/
structure Config (σ : Type) where
  MainBranch : σ → String
  SetMainBranch : String → σ → GoError × σ
  PerennialBranches : σ → List String
  SetPerennialBranches : List String → σ → GoError × σ
  PushHook : σ → Bool × GoError
  PushHookGlobal : σ → Bool × GoError
  SetPushHookLocally : Bool → σ → GoError × σ
  SetPushHookGlobally : Bool → σ → GoError × σ

/-- The git backend `git.BackendCommands`, whose code is outside these files:
the queries and the one mutation (`CheckoutBranch`) the code calls.  Like the
Go struct it carries the configuration store. -/
structure BackendCommands (σ : Type) where
  Config : Config σ
  ExpectedPreviouslyCheckedOutBranch : String → String → String → σ → String × GoError
  PreviouslyCheckedOutBranch : σ → String × GoError
  CurrentBranch : σ → String × GoError
  CheckoutBranch : String → σ → GoError × σ
  HasLocalBranch : String → σ → Bool × GoError
  LocalBranchesWithoutMain : String → σ → List String × GoError

/-- The runner `git.ProdRunner`: the backend and the configuration store. -/
structure ProdRunner (σ : Type) where
  Backend : BackendCommands σ
  Config : Config σ

/-! ## `steps.PreserveCheckoutHistoryStep` -/

/-- The payload of `PreserveCheckoutHistoryStep`. -/
structure PreserveCheckoutHistoryStep where
  InitialBranch : String
  InitialPreviouslyCheckedOutBranch : String
  MainBranch : String

/-- The function `PreserveCheckoutHistoryStep.Run` (the hosting connector is not used by
the body).  Returns the error and the state the backend is left in. -/
def PreserveCheckoutHistoryStep.Run {σ : Type} (step : PreserveCheckoutHistoryStep)
    (run : ProdRunner σ) (s : σ) : GoError × σ :=
  match run.Backend.ExpectedPreviouslyCheckedOutBranch
      step.InitialPreviouslyCheckedOutBranch step.InitialBranch step.MainBranch s with
  | (_, some err) => (some err, s)
  | (expectedPreviouslyCheckedOutBranch, none) =>
    -- NOTE: errors are not a failure condition here --> ignoring them
    let previouslyCheckedOutBranch := (run.Backend.PreviouslyCheckedOutBranch s).1
    if expectedPreviouslyCheckedOutBranch = previouslyCheckedOutBranch then
      (none, s)
    else
      match run.Backend.CurrentBranch s with
      | (_, some err) => (some err, s)
      | (currentBranch, none) =>
        match run.Backend.CheckoutBranch expectedPreviouslyCheckedOutBranch s with
        | (some err, s1) => (some err, s1)
        | (none, s1) => run.Backend.CheckoutBranch currentBranch s1

/-! ## A concrete repository -/

/-- A repository as the commands see it: the checked out branch, the branch
checked out before it (`@{-1}`), the local branches, the configuration entities
of the data model, what the pre-flight validation "working directory is a git
repository" reports, and whether a RunState is persisted. -/
structure Repo where
  current : String
  previous : String
  localBranches : List String
  mainBranch : String
  perennialBranches : List String
  pushHookLocal : Bool
  pushHookGlobal : Bool
  repositoryError : GoError
  unfinishedRunState : Bool
  deriving DecidableEq, Repr

/-- Modelled from the spec: the configuration store (`config.GitTown`, not in
these files) over a `Repo`.  "Configuration is a shared cache over git config;
writes go through to git immediately": a setter overwrites its own entity and
nothing else, a getter reads it. -/
def repoConfig : Config Repo where
  MainBranch := fun s => s.mainBranch
  SetMainBranch := fun b s => (none, { s with mainBranch := b })
  PerennialBranches := fun s => s.perennialBranches
  SetPerennialBranches := fun bs s => (none, { s with perennialBranches := bs })
  PushHook := fun s => (s.pushHookLocal, none)
  PushHookGlobal := fun s => (s.pushHookGlobal, none)
  SetPushHookLocally := fun v s => (none, { s with pushHookLocal := v })
  SetPushHookGlobally := fun v s => (none, { s with pushHookGlobal := v })

/-- Modelled from the spec: the git backend (`git.BackendCommands`, not in
these files) over a `Repo`, every call succeeding.  `CheckoutBranch b` is
`git checkout b`: the branch that was checked out becomes `@{-1}` and `b`
becomes the current branch.  What `ExpectedPreviouslyCheckedOutBranch` answers
is the parameter `expected`. -/
def repoBackend (expected : String → String → String → Repo → String) : BackendCommands Repo where
  Config := repoConfig
  ExpectedPreviouslyCheckedOutBranch := fun p i m s => (expected p i m s, none)
  PreviouslyCheckedOutBranch := fun s => (s.previous, none)
  CurrentBranch := fun s => (s.current, none)
  CheckoutBranch := fun b s => (none, { s with previous := s.current, current := b })
  HasLocalBranch := fun b s => (decide (b ∈ s.localBranches), none)
  LocalBranchesWithoutMain := fun m s => (s.localBranches.filter (fun b => b ≠ m), none)

/-- The runner over a `Repo`. -/
def repoRunner (expected : String → String → String → Repo → String) : ProdRunner Repo where
  Backend := repoBackend expected
  Config := repoConfig

/-- A backend answer for `ExpectedPreviouslyCheckedOutBranch` used in the
examples: the initial previous branch if it is still a local branch, else the
main branch. -/
def sampleExpected (p _i m : String) (s : Repo) : String :=
  if p ∈ s.localBranches then p else m

/-- A repository on `feature`, whose `@{-1}` is `main`, with a third branch;
the validations pass and no RunState is persisted. -/
def sampleRepo : Repo where
  current := "feature"
  previous := "main"
  localBranches := ["main", "feature", "other"]
  mainBranch := "main"
  perennialBranches := []
  pushHookLocal := true
  pushHookGlobal := true
  repositoryError := none
  unfinishedRunState := false

/-- A step created while `other` was `@{-1}`. -/
def sampleStep : PreserveCheckoutHistoryStep where
  InitialBranch := "feature"
  InitialPreviouslyCheckedOutBranch := "other"
  MainBranch := "main"

/-- The runner `run` with the error of its previous-branch query replaced by
`err`; the branch name the query returns is kept. -/
def withPreviousBranchError {σ : Type} (run : ProdRunner σ) (err : GoError) : ProdRunner σ :=
  { run with
    Backend := { run.Backend with
      PreviouslyCheckedOutBranch := fun s => ((run.Backend.PreviouslyCheckedOutBranch s).1, err) } }

/-- The runner of `repoRunner sampleExpected` whose current-branch query fails. -/
def currentBranchFails : ProdRunner Repo :=
  { repoRunner sampleExpected with
    Backend := { repoBackend sampleExpected with
      CurrentBranch := fun _ => ("", some "exit status 128") } }

/-- The runner of `repoRunner sampleExpected` in which branch `b` cannot be
checked out. -/
def checkoutFailsFor (b : String) : ProdRunner Repo :=
  { repoRunner sampleExpected with
    Backend := { repoBackend sampleExpected with
      CheckoutBranch := fun c s =>
        if c = b then (some "exit status 1", s)
        else (none, { s with previous := s.current, current := c }) } }

/-! ## Commands `config main-branch` and `config push-hook` -/

/-- Text functions whose code is outside these files: the verb `%q` of Go's
`fmt` applied to a string (`Quote`), `cli.StringSetting`, `cli.FormatBool`,
`fmt.Sprintf` applied to a format alone (`Sprintf`), and the bold cyan styling
of `color.New(color.Bold).Add(color.FgCyan)` (`BoldCyan`). -/
structure Text where
  Quote : String → String
  StringSetting : String → String
  FormatBool : Bool → String
  Sprintf : String → String
  BoldCyan : String → String

/-- What a command leaves behind: its error, the state, and the lines it
printed with `cli.Println`. -/
structure Outcome (σ : Type) where
  err : GoError
  state : σ
  stdout : List String

/-- The argument record `execute.LoadArgs`, as the commands fill it. -/
structure LoadArgs where
  OmitBranchNames : Bool
  Debug : Bool
  DryRun : Bool
  HandleUnfinishedState : Bool
  ValidateGitversion : Bool
  ValidateIsRepository : Bool
  deriving DecidableEq, Repr

/-- What `execute.LoadProdRunner` returns (`run, exit, err`), with the state it
leaves and the lines it printed. -/
structure Loaded (σ : Type) where
  run : ProdRunner σ
  exit : Bool
  err : GoError
  state : σ
  stdout : List String

/-- The function `printMainBranch`: the line printed. -/
def printMainBranch {σ : Type} (txt : Text) (run : ProdRunner σ) (s : σ) : List String :=
  [txt.StringSetting (run.Config.MainBranch s)]

/-- The function `setMainBranch`. -/
def setMainBranch {σ : Type} (txt : Text) (branch : String) (run : ProdRunner σ) (s : σ) :
    GoError × σ :=
  match run.Backend.HasLocalBranch branch s with
  | (_, some err) => (some err, s)
  | (hasBranch, none) =>
    if !hasBranch then
      (some ("there is no branch named " ++ txt.Quote branch), s)
    else
      run.Config.SetMainBranch branch s

/-- The function `configureMainBranch`; `load` is `execute.LoadProdRunner`. -/
def configureMainBranch {σ : Type} (load : LoadArgs → σ → Loaded σ) (txt : Text)
    (args : List String) (debug : Bool) (s : σ) : Outcome σ :=
  let l := load
    { OmitBranchNames := true
      Debug := debug
      DryRun := false
      HandleUnfinishedState := false
      ValidateGitversion := true
      ValidateIsRepository := true } s
  if l.err.isSome || l.exit then
    ⟨l.err, l.state, l.stdout⟩
  else
    match args with
    | arg :: _ =>
      let r := setMainBranch txt arg l.run l.state
      ⟨r.1, r.2, l.stdout⟩
    | [] => ⟨none, l.state, l.stdout ++ printMainBranch txt l.run l.state⟩

/-- The function `printPushHook`: a read of one of the two settings, then one printed line. -/
def printPushHook {σ : Type} (txt : Text) (globalFlag : Bool) (run : ProdRunner σ) (s : σ) :
    Outcome σ :=
  let r := if globalFlag then run.Config.PushHookGlobal s else run.Config.PushHook s
  match r with
  | (_, some err) => ⟨some err, s, []⟩
  | (setting, none) => ⟨none, s, [txt.FormatBool setting]⟩

/-- The function `setPushHook`; `parseBool` is `config.ParseBool`. -/
def setPushHook {σ : Type} (parseBool : String → Bool × GoError) (txt : Text)
    (text : String) ( global : Bool) (run : ProdRunner σ) (s : σ) : GoError × σ :=
  match parseBool text with
  | (_, some _) =>
    (some ("invalid argument: " ++ txt.Quote text
      ++ ". Please provide either \"yes\" or \"no\""), s)
  | (value, none) =>
    if global then run.Config.SetPushHookGlobally value s
    else run.Config.SetPushHookLocally value s

/-- The function `pushHook`; `load` is `execute.LoadProdRunner`. -/
def pushHook {σ : Type} (load : LoadArgs → σ → Loaded σ)
    (parseBool : String → Bool × GoError) (txt : Text)
    (args : List String) ( global debug : Bool) (s : σ) : Outcome σ :=
  let l := load
    { OmitBranchNames := true
      Debug := debug
      DryRun := false
      HandleUnfinishedState := false
      ValidateGitversion := true
      ValidateIsRepository := true } s
  if l.err.isSome || l.exit then
    ⟨l.err, l.state, l.stdout⟩
  else
    match args with
    | arg :: _ =>
      let r := setPushHook parseBool txt arg global l.run l.state
      ⟨r.1, r.2, l.stdout⟩
    | [] =>
      let r := printPushHook txt global l.run l.state
      ⟨r.err, r.state, l.stdout ++ r.stdout⟩

/-- Modelled from the spec: `config.ParseBool` is not in these files.  The
command line is `config push-hook [--global] (yes|no)` and the error text asks
for either "yes" or "no": `yes` is true, `no` is false, any other text is an
error. -/
def ParseBool (text : String) : Bool × GoError :=
  if text = "yes" then (true, none)
  else if text = "no" then (false, none)
  else (false, some ("cannot parse as boolean: " ++ text))

/-- Text functions used in the examples.  `Quote` puts the text between double
quotes, which is what `%q` gives for text without quotes, backslashes and
non-printable characters; `Sprintf` and `BoldCyan` return the text itself,
which is what they give for a format without `%` and with colors disabled. -/
def sampleText : Text where
  Quote := fun s => "\"" ++ s ++ "\""
  StringSetting := fun s => if s = "" then "[none]" else s
  FormatBool := fun b => if b then "yes" else "no"
  Sprintf := fun s => s
  BoldCyan := fun s => s

/-- The runner of `repoRunner sampleExpected` whose local-branch query fails. -/
def hasLocalBranchFails : ProdRunner Repo :=
  { repoRunner sampleExpected with
    Backend := { repoBackend sampleExpected with
      HasLocalBranch := fun _ _ => (false, some "exit status 128") } }

/-- The commands that act on a persisted RunState. -/
def resumeCommands : List String :=
  ["continue", "abort", "skip", "undo"]

/-- Modelled from the spec: `execute.LoadProdRunner` is not in these files.
It is the validation layer run before a command, `command` being the command
invoked: the validator ensures that the "working directory is a git
repository" (a validation error is "reported immediately"), and "if a RunState
is persisted and the invoked command is not continue/abort/skip/undo, refuse
and print instructions" (`exit` is true and `instructions` are printed).  The
spec makes neither check depend on the `LoadArgs`.  It writes nothing. -/
def LoadProdRunner (expected : String → String → String → Repo → String)
    (instructions : List String) (command : String) (_args : LoadArgs) (s : Repo) :
    Loaded Repo :=
  if s.repositoryError.isSome then
    ⟨repoRunner expected, false, s.repositoryError, s, []⟩
  else if s.unfinishedRunState && !(resumeCommands.contains command) then
    ⟨repoRunner expected, true, none, s, instructions⟩
  else
    ⟨repoRunner expected, false, none, s, []⟩

/-- The `LoadArgs` that `configureMainBranch` and `pushHook` hand to
`execute.LoadProdRunner`. -/
def configLoadArgs (debug : Bool) : LoadArgs where
  OmitBranchNames := true
  Debug := debug
  DryRun := false
  HandleUnfinishedState := false
  ValidateGitversion := true
  ValidateIsRepository := true

/-- The instructions printed in the examples when a persisted RunState makes a
command refuse. -/
def sampleInstructions : List String :=
  ["You have an unfinished command. Run \"git-town continue\", \"git-town abort\" or \"git-town skip\"."]

/-- The repository `sampleRepo` with a persisted RunState. -/
def pausedRepo : Repo :=
  { sampleRepo with unfinishedRunState := true }

/-- A folder that is not a git repository, with a persisted RunState. -/
def pausedNoRepo : Repo :=
  { pausedRepo with repositoryError := some "this is not a Git repository" }

/-- A loader that reports the error `err` whatever it is asked. -/
def failingLoad (err : String) (_args : LoadArgs) (s : Repo) : Loaded Repo :=
  ⟨repoRunner sampleExpected, false, some err, s, []⟩

/-! ## `validate.EnterPerennialBranches` -/

/-- The argument record `dialog.MultiSelectArgs`. -/
structure MultiSelectArgs where
  Options : List String
  Defaults : List String
  Message : String
  deriving DecidableEq, Repr

/-- The function `perennialBranchesPrompt`.  The joined names are the format handed to
`Sprintf` of the bold cyan color, which styles what `fmt.Sprintf` makes of
that format. -/
def perennialBranchesPrompt (txt : Text) (perennialBranches : List String) : String :=
  let result := "Please specify perennial branches:"
  if perennialBranches.length > 0 then
    let coloredBranches := txt.BoldCyan (txt.Sprintf (", ".intercalate perennialBranches))
    result ++ (" (current value: " ++ coloredBranches ++ ")")
  else
    result

/-- The function `EnterPerennialBranches`; `multiSelect` is `dialog.MultiSelect`, the answer
of the user to the dialog with the given arguments. -/
def EnterPerennialBranches {σ : Type} (multiSelect : MultiSelectArgs → List String × GoError)
    (txt : Text) (backend : BackendCommands σ) (mainBranch : String) (s : σ) : GoError × σ :=
  match backend.LocalBranchesWithoutMain mainBranch s with
  | (_, some err) => (some err, s)
  | (localBranchesWithoutMain, none) =>
    let oldPerennialBranches := backend.Config.PerennialBranches s
    match multiSelect
      { Options := localBranchesWithoutMain
        Defaults := oldPerennialBranches
        Message := perennialBranchesPrompt txt oldPerennialBranches } with
    | (_, some err) => (some err, s)
    | (newPerennialBranches, none) => backend.Config.SetPerennialBranches newPerennialBranches s

/-- A user who selects every option offered. -/
def selectAll (args : MultiSelectArgs) : List String × GoError :=
  (args.Options, none)

/-- A user who keeps the defaults offered. -/
def selectDefaults (args : MultiSelectArgs) : List String × GoError :=
  (args.Defaults, none)

/-- A user who interrupts the dialog. -/
def selectAborted (_args : MultiSelectArgs) : List String × GoError :=
  ([], some "interrupt")

/-- The backend of `repoBackend sampleExpected` whose branch listing fails. -/
def listingFails : BackendCommands Repo :=
  { repoBackend sampleExpected with
    LocalBranchesWithoutMain := fun _ _ => ([], some "exit status 128") }

/-- The repository `sampleRepo` with the perennial branch `other`. -/
def perennialRepo : Repo :=
  { sampleRepo with perennialBranches := ["other"] }

/-! ## `fixture.Fixture` -/

/-- A Go call that returns `α` or stops in a runtime panic (an index out of
range, a call through a nil pointer). -/
inductive Exec (α : Type) where
  | ret : α → Exec α
  | panic : Exec α
  deriving DecidableEq, Repr

/-- The struct `git.Commit` of the test harness, whose declaration is outside
these files: the fields the fixture reads. -/
structure Commit where
  Branch : String
  Locations : List String
  deriving DecidableEq, Repr

/-- The test runtime `testruntime.TestRuntime`, whose code is outside these
files: the operations the fixture calls, over the state `σ` of the folders on
disk. -/
structure TestRuntime (σ : Type) where
  MainBranch : σ → String
  LocalBranchesMainFirst : String → σ → List String × GoError
  CreateCommit : Commit → σ → GoError × σ
  PushBranchToRemote : String → String → σ → GoError × σ
  CheckoutBranch : String → σ → GoError × σ
  CreateTag : String → σ → GoError × σ

/-- The struct `Fixture`; a nil repository pointer is `none`. -/
structure Fixture (σ : Type) where
  Dir : String
  CoworkerRepo : Option (TestRuntime σ)
  DevRepo : TestRuntime σ
  OriginRepo : Option (TestRuntime σ)
  SubmoduleRepo : Option (TestRuntime σ)
  UpstreamRepo : Option (TestRuntime σ)

/-- Modelled from the spec: `datatable.DataTable` is not in these files; a
table is its rows of cells, in the order they were added. -/
structure DataTable where
  Cells : List (List String)
  deriving DecidableEq, Repr

/-- Modelled from the spec: `DataTable.AddRow` is not in these files; it adds
the given cells as the last row. -/
def DataTable.AddRow (table : DataTable) (elements : List String) : DataTable :=
  { Cells := table.Cells ++ [elements] }

/-- Modelled from the spec: `stringslice.Remove` is not in these files; the
list without the entries equal to `needle`. -/
def stringslice.Remove (haystack : List String) (needle : String) : List String :=
  haystack.filter (fun element => element ≠ needle)

/-- Modelled from the spec: the constant `config.OriginRemote` is not in these
files; the remote of a repository is `origin`. -/
def OriginRemote : String := "origin"

/-- The verb `%q` of Go's `fmt` applied to a slice of strings: the quoted
elements, separated by blanks, in square brackets. -/
def quoteSlice (txt : Text) (elements : List String) : String :=
  "[" ++ " ".intercalate (elements.map txt.Quote) ++ "]"

/-- The function `Fixture.Branches`. -/
def Fixture.Branches {σ : Type} (env : Fixture σ) (s : σ) : DataTable × GoError :=
  let result := (DataTable.mk []).AddRow ["REPOSITORY", "BRANCHES"]
  let mainBranch := env.DevRepo.MainBranch s
  match env.DevRepo.LocalBranchesMainFirst mainBranch s with
  | (_, some err) =>
    (result, some ("cannot determine the developer repo branches of the Fixture: " ++ err))
  | (localBranches, none) =>
    let localBranches := stringslice.Remove localBranches "initial"
    let localBranchesJoined := ", ".intercalate localBranches
    match env.OriginRepo with
    | none => (result.AddRow ["local", localBranchesJoined], none)
    | some originRepo =>
      match originRepo.LocalBranchesMainFirst mainBranch s with
      | (_, some err) =>
        (result, some ("cannot determine the origin repo branches of the Fixture: " ++ err))
      | (originBranches, none) =>
        let originBranches := stringslice.Remove originBranches "initial"
        let originBranchesJoined := ", ".intercalate originBranches
        if localBranchesJoined = originBranchesJoined then
          (result.AddRow ["local, origin", localBranchesJoined], none)
        else
          ((result.AddRow ["local", localBranchesJoined]).AddRow
            ["origin", originBranchesJoined], none)

/-- How the loop over the locations of one commit in `CreateCommits` ends:
the function returns from inside the loop (`returned`), the loop runs to its
end with `err` holding the error of the last location (`finished`), or a call
goes through a nil repository pointer (`panic`). -/
inductive LocationsResult (σ : Type) where
  | returned : GoError → σ → LocationsResult σ
  | finished : GoError → σ → LocationsResult σ
  | panic : LocationsResult σ

/-- The inner loop `for _, location := range commit.Locations` of
`CreateCommits`; `err` is the variable declared before the loop. -/
def createCommitLocations {σ : Type} (txt : Text) (env : Fixture σ) (commit : Commit) :
    List String → GoError → σ → LocationsResult σ
  | [], err, s => .finished err s
  | location :: rest, _, s =>
    if location = "coworker" then
      match env.CoworkerRepo with
      | none => .panic
      | some repo =>
        let r := repo.CreateCommit commit s
        createCommitLocations txt env commit rest r.1 r.2
    else if location = "local" then
      let r := env.DevRepo.CreateCommit commit s
      createCommitLocations txt env commit rest r.1 r.2
    else if location = "local, origin" then
      match env.DevRepo.CreateCommit commit s with
      | (some err, s1) => .returned (some ("cannot create local commit: " ++ err)) s1
      | (none, s1) =>
        match env.DevRepo.PushBranchToRemote commit.Branch OriginRemote s1 with
        | (some err, s2) =>
          .returned (some ("cannot push branch " ++ txt.Quote commit.Branch
            ++ " after creating commit: " ++ err)) s2
        | (none, s2) => createCommitLocations txt env commit rest none s2
    else if location = "origin" then
      match env.OriginRepo with
      | none => .panic
      | some repo =>
        let r := repo.CreateCommit commit s
        createCommitLocations txt env commit rest r.1 r.2
    else if location = "upstream" then
      match env.UpstreamRepo with
      | none => .panic
      | some repo =>
        let r := repo.CreateCommit commit s
        createCommitLocations txt env commit rest r.1 r.2
    else
      .returned (some ("unknown commit location " ++ quoteSlice txt commit.Locations)) s

/-- The function `Fixture.CreateCommits`. -/
def Fixture.CreateCommits {σ : Type} (txt : Text) (env : Fixture σ) :
    List Commit → σ → Exec (GoError × σ)
  | [], s =>
    -- after setting up the commits, check out the "initial" branch in the origin repo
    match env.OriginRepo with
    | some originRepo =>
      match originRepo.CheckoutBranch "initial" s with
      | (some err, s1) =>
        .ret (some ("cannot change origin repo back to initial: " ++ err), s1)
      | (none, s1) => .ret (none, s1)
    | none => .ret (none, s)
  | commit :: commits, s =>
    match createCommitLocations txt env commit commit.Locations none s with
    | .panic => .panic
    | .returned err s1 => .ret (err, s1)
    | .finished (some err) s1 => .ret (some err, s1)
    | .finished none s1 => Fixture.CreateCommits txt env commits s1

/-- The loop `for _, row := range table.Rows[1:]` of `CreateTags`; a row is
the values of its cells. -/
def createTagsRows {σ : Type} (env : Fixture σ) : List (List String) → σ → Exec (GoError × σ)
  | [], s => .ret (none, s)
  | row :: rows, s =>
    match row with
    | name :: location :: _ =>
      let r : Exec (GoError × σ) :=
        if location = "local" then
          .ret (env.DevRepo.CreateTag name s)
        else if location = "origin" then
          match env.OriginRepo with
          | none => .panic
          | some originRepo => .ret (originRepo.CreateTag name s)
        else
          .ret (some "tag table LOCATION must be 'local' or 'origin'", s)
      match r with
      | .panic => .panic
      | .ret (some err, s1) => .ret (some err, s1)
      | .ret (none, s1) => createTagsRows env rows s1
    | _ => .panic

/-- Modelled from the spec: `helpers.TableFields` is not in these files; the
column names of a table are the values of the cells of its first row (a table
without rows is an index out of range). -/
def TableFields (table : List (List String)) : Exec (List String) :=
  match table with
  | [] => .panic
  | header :: _ => .ret header

/-- The function `Fixture.CreateTags`; the Gherkin table is the list of its rows, a row the
values of its cells.  `&&` reads `columnNames[1]` only when `columnNames[0]`
is not `NAME`. -/
def Fixture.CreateTags {σ : Type} (env : Fixture σ) (table : List (List String)) (s : σ) :
    Exec (GoError × σ) :=
  match TableFields table with
  | .panic => .panic
  | .ret columnNames =>
    match columnNames with
    | [] => .panic
    | name0 :: others =>
      if name0 ≠ "NAME" then
        match others with
        | [] => .panic
        | name1 :: _ =>
          if name1 ≠ "LOCATION" then
            .ret (some "tag table must have columns NAME and LOCATION", s)
          else
            createTagsRows env table.tail s
      else
        createTagsRows env table.tail s

/-- A test repository used in the examples, over the list of the git
operations performed so far: it has the given branches, creating a commit in
it reports `commitError`, every other operation succeeds. -/
def scriptedRepo (name : String) (branches : List String) (commitError : GoError) :
    TestRuntime (List String) where
  MainBranch := fun _ => "main"
  LocalBranchesMainFirst := fun _ _ => (branches, none)
  CreateCommit := fun commit log =>
    match commitError with
    | some err => (some err, log)
    | none => (none, log ++ [name ++ ": commit on " ++ commit.Branch])
  PushBranchToRemote := fun branch remote log =>
    (none, log ++ [name ++ ": push " ++ branch ++ " to " ++ remote])
  CheckoutBranch := fun branch log => (none, log ++ [name ++ ": checkout " ++ branch])
  CreateTag := fun tag log => (none, log ++ [name ++ ": tag " ++ tag])

/-- A fixture with a developer repository whose commits fail and an origin
repository whose commits succeed. -/
def localCommitFails : Fixture (List String) where
  Dir := "/tmp/fixture"
  CoworkerRepo := none
  DevRepo := scriptedRepo "local" ["main", "feature"] (some "exit status 1")
  OriginRepo := some (scriptedRepo "origin" ["main", "initial", "feature"] none)
  SubmoduleRepo := none
  UpstreamRepo := none

/-- A fixture with a developer and an origin repository that have the same
branches apart from `initial`. -/
def standardFixture : Fixture (List String) where
  Dir := "/tmp/fixture"
  CoworkerRepo := none
  DevRepo := scriptedRepo "local" ["main", "feature"] none
  OriginRepo := some (scriptedRepo "origin" ["main", "initial", "feature"] none)
  SubmoduleRepo := none
  UpstreamRepo := none

/-- A fixture without origin. -/
def noOriginFixture : Fixture (List String) :=
  { standardFixture with OriginRepo := none }

/-- A fixture whose origin has a branch the developer repository lacks. -/
def divergedFixture : Fixture (List String) :=
  { standardFixture with
    OriginRepo := some (scriptedRepo "origin" ["main", "initial", "feature", "hotfix"] none) }

/-! ## Go's `fmt.Sprintf` on a format without operands

`perennialBranchesPrompt` hands the joined branch names to `Sprintf` as the
format, with no operands.  What follows is `doPrintf` of Go's package `fmt`
for that case, over the characters of the format (the characters the scanner
looks for are ASCII, and a verb is one whole character).  Without operands a
verb prints nothing but one of the texts `%`, `%!(NOVERB)`, `%!v(MISSING)`,
`%!v(BADINDEX)`, preceded by `%!(BADWIDTH)` or `%!(BADPREC)` for a `*`. -/

/-- The loop `simpleFormat` of `doPrintf`: the flags `#`, `0`, `+`, `-` and
blank after a `%` are passed over (without operands the fast path for a simple
verb is never taken). -/
def fmt.skipFlags : List Char → List Char
  | [] => []
  | c :: cs =>
    if c = '#' ∨ c = '0' ∨ c = '+' ∨ c = '-' ∨ c = ' ' then fmt.skipFlags cs else c :: cs

/-- The function `parsenum` of package `fmt` on the rest of the text: whether a
number was read, and the text after it.  A number that has grown beyond a
million stops the scan at the end of the text, with no number read. -/
def fmt.parsenum : List Char → Nat → Bool → Bool × List Char
  | [], _, isnum => (isnum, [])
  | c :: cs, num, isnum =>
    if '0' ≤ c ∧ c ≤ '9' then
      if num > 1000000 then (false, [])
      else fmt.parsenum cs (num * 10 + (c.toNat - '0'.toNat)) true
    else (isnum, c :: cs)

/-- The length of a text in bytes, which is what Go's `len` gives. -/
def fmt.byteLength (l : List Char) : Nat :=
  (l.map (fun c => c.utf8Size)).sum

/-- The function `parseArgNumber` of package `fmt` on a text that starts with
`[`: the text after the bracketed index (after the `[` alone if there is no
closing bracket) and whether the brackets hold a number. -/
def fmt.parseArgNumber (format : List Char) : List Char × Bool :=
  if fmt.byteLength format < 3 then (format.drop 1, false)
  else
    let inner := format.drop 1
    if ']' ∈ inner then
      let digits := inner.takeWhile (fun c => c ≠ ']')
      let rest := (inner.dropWhile (fun c => c ≠ ']')).drop 1
      (rest, decide (digits ≠ [] ∧ fmt.parsenum digits 0 false = (true, [])))
    else (format.drop 1, false)

/-- What `argNumber` of package `fmt` leaves: the text after an argument index,
whether an index was found, and the flag `goodArgNum`. -/
structure fmt.ArgNumber where
  rest : List Char
  found : Bool
  goodArgNum : Bool

/-- The function `argNumber` of package `fmt` without operands: no index is
in range, so every `[` clears `goodArgNum`. -/
def fmt.argNumber (format : List Char) (goodArgNum : Bool) : fmt.ArgNumber :=
  match format with
  | '[' :: _ => ⟨(fmt.parseArgNumber format).1, (fmt.parseArgNumber format).2, false⟩
  | _ => ⟨format, false, goodArgNum⟩

/-- One verb of `doPrintf`, on the text after its `%`: flags, argument index,
width, precision, argument index, verb.  Returns what is written and the text
after the verb. -/
def fmt.verbStep (format : List Char) : List Char × List Char :=
  let a1 := fmt.argNumber (fmt.skipFlags format) true
  -- Do we have width?
  let (out1, i2, good2, afterIndex2) :=
    match a1.rest with
    | '*' :: rest => ("%!(BADWIDTH)".toList, rest, a1.goodArgNum, false)
    | rest =>
      let w := fmt.parsenum rest 0 false
      ([], w.2, a1.goodArgNum && !(a1.found && w.1), a1.found)
  -- Do we have precision?  (`i+1 < end`: a `.` that ends the format is the verb.)
  let (out2, i3, good3, afterIndex3) :=
    match i2 with
    | '.' :: next :: more =>
      let a2 := fmt.argNumber (next :: more) (good2 && !afterIndex2)
      match a2.rest with
      | '*' :: rest2 => ("%!(BADPREC)".toList, rest2, a2.goodArgNum, false)
      | rest2 => ([], (fmt.parsenum rest2 0 false).2, a2.goodArgNum, a2.found)
    | rest => ([], rest, good2, afterIndex2)
  let a3 := if afterIndex3 then ⟨i3, afterIndex3, good3⟩ else fmt.argNumber i3 good3
  match a3.rest with
  | [] => (out1 ++ out2 ++ "%!(NOVERB)".toList, [])
  | verb :: rest =>
    if verb = '%' then (out1 ++ out2 ++ ['%'], rest)
    else if !a3.goodArgNum then
      (out1 ++ out2 ++ "%!".toList ++ [verb] ++ "(BADINDEX)".toList, rest)
    else
      (out1 ++ out2 ++ "%!".toList ++ [verb] ++ "(MISSING)".toList, rest)

/-- The loop `formatLoop` of `doPrintf` without operands: text up to a `%` is
copied, then one verb is processed.  Every round takes at least one character,
so `fuel` is the length of the format. -/
def fmt.doPrintf : Nat → List Char → List Char
  | 0, _ => []
  | _ + 1, [] => []
  | fuel + 1, c :: cs =>
    if c = '%' then (fmt.verbStep cs).1 ++ fmt.doPrintf fuel (fmt.verbStep cs).2
    else c :: fmt.doPrintf fuel cs

/-- Go's `fmt.Sprintf(format)`, called without operands. -/
def fmt.Sprintf (format : String) : String :=
  String.mk (fmt.doPrintf format.length format.toList)

/-- The text functions with `Sprintf` that of Go's `fmt` and the bold cyan
styling given; the other functions are those of `sampleText`. -/
def fmtText (boldCyan : String → String) : Text :=
  { sampleText with Sprintf := fmt.Sprintf, BoldCyan := boldCyan }

/-! ## Theorems -/

/-- C1: in a backend whose calls all succeed, where `cur` and `prev` read the
current branch and `@{-1}` and a checkout of `b` makes the current branch the
previous one and `b` the current one, `Run` returns no error, leaves the
current branch as it was and leaves `@{-1}` equal to the answer `e` of
`ExpectedPreviouslyCheckedOutBranch`. -/
theorem preserveCheckoutHistory_restores_previous {σ : Type} (run : ProdRunner σ)
    (cur prev : σ → String) (step : PreserveCheckoutHistoryStep) (s : σ) (e : String)
    (hexp : run.Backend.ExpectedPreviouslyCheckedOutBranch
      step.InitialPreviouslyCheckedOutBranch step.InitialBranch step.MainBranch s = (e, none))
    (hprev : run.Backend.PreviouslyCheckedOutBranch s = (prev s, none))
    (hcur : run.Backend.CurrentBranch s = (cur s, none))
    (hco : ∀ b t, (run.Backend.CheckoutBranch b t).1 = none ∧
      cur (run.Backend.CheckoutBranch b t).2 = b ∧
      prev (run.Backend.CheckoutBranch b t).2 = cur t) :
    (step.Run run s).1 = none ∧ cur (step.Run run s).2 = cur s ∧
      prev (step.Run run s).2 = e := by
  unfold PreserveCheckoutHistoryStep.Run
  simp only [hexp, hprev, hcur]
  by_cases h : e = prev s
  · simp [h]
  · simp only [h, if_false]
    obtain ⟨h1, h2, _⟩ := hco e s
    obtain ⟨h4, h5, h6⟩ := hco (cur s) (run.Backend.CheckoutBranch e s).2
    rcases hc : run.Backend.CheckoutBranch e s with ⟨err, s1⟩
    rw [hc] at h1 h2 h4 h5 h6
    simp only at h1 h2 h4 h5 h6
    subst h1
    simp only
    exact ⟨h4, h5, h6.trans h2⟩

/-- C1, at a concrete repository: on `feature` with `@{-1} = main` and the
expected previous branch `other`, `Run` ends on `feature` with `@{-1} = other`. -/
theorem preserveCheckoutHistory_restores_previous_witness :
    (sampleStep.Run (repoRunner sampleExpected) sampleRepo).1 = none ∧
    (sampleStep.Run (repoRunner sampleExpected) sampleRepo).2.current = sampleRepo.current ∧
    (sampleStep.Run (repoRunner sampleExpected) sampleRepo).2.previous = "other" :=
  preserveCheckoutHistory_restores_previous (repoRunner sampleExpected)
    (fun s => s.current) (fun s => s.previous) sampleStep sampleRepo "other"
    (by decide) rfl rfl (fun _ _ => ⟨rfl, rfl, rfl⟩)

/-- C2 fails as stated: when the current-branch query fails, `Run` returns that
error. -/
theorem preserveCheckoutHistory_currentBranch_error_returned :
    (sampleStep.Run currentBranchFails sampleRepo).1 = some "exit status 128" := by
  decide

/-- C2, amended: of the intermediate calls only the previous-branch query is
tolerated: `Run` gives the same result whatever error that query reports.  An
error of the current-branch query, of the checkout of the expected previous
branch, or of the checkout back to the current branch is returned by `Run`. -/
theorem preserveCheckoutHistory_tolerates_only_previous_query {σ : Type}
    (run : ProdRunner σ) (step : PreserveCheckoutHistoryStep) (s : σ) :
    (∀ err, step.Run (withPreviousBranchError run err) s
        = step.Run (withPreviousBranchError run none) s) ∧
    (∀ e c err,
      run.Backend.ExpectedPreviouslyCheckedOutBranch
        step.InitialPreviouslyCheckedOutBranch step.InitialBranch step.MainBranch s = (e, none) →
      e ≠ (run.Backend.PreviouslyCheckedOutBranch s).1 →
      run.Backend.CurrentBranch s = (c, some err) →
      step.Run run s = (some err, s)) ∧
    (∀ e c err s1,
      run.Backend.ExpectedPreviouslyCheckedOutBranch
        step.InitialPreviouslyCheckedOutBranch step.InitialBranch step.MainBranch s = (e, none) →
      e ≠ (run.Backend.PreviouslyCheckedOutBranch s).1 →
      run.Backend.CurrentBranch s = (c, none) →
      run.Backend.CheckoutBranch e s = (some err, s1) →
      step.Run run s = (some err, s1)) ∧
    (∀ e c err s1 s2,
      run.Backend.ExpectedPreviouslyCheckedOutBranch
        step.InitialPreviouslyCheckedOutBranch step.InitialBranch step.MainBranch s = (e, none) →
      e ≠ (run.Backend.PreviouslyCheckedOutBranch s).1 →
      run.Backend.CurrentBranch s = (c, none) →
      run.Backend.CheckoutBranch e s = (none, s1) →
      run.Backend.CheckoutBranch c s1 = (some err, s2) →
      step.Run run s = (some err, s2)) := by
  refine ⟨?_, ?_, ?_, ?_⟩
  · intro err
    rfl
  · intro e c err hexp hne hcur
    unfold PreserveCheckoutHistoryStep.Run
    simp only [hexp, hcur, if_neg hne]
  · intro e c err s1 hexp hne hcur hco
    unfold PreserveCheckoutHistoryStep.Run
    simp only [hexp, hcur, hco, if_neg hne]
  · intro e c err s1 s2 hexp hne hcur hco hback
    unfold PreserveCheckoutHistoryStep.Run
    simp only [hexp, hcur, hco, hback, if_neg hne]

/-- C2, amended, at a concrete repository: a failing previous-branch query
changes nothing, while a failing current-branch query, a failing checkout of
`other` and a failing checkout back to `feature` are each returned. -/
theorem preserveCheckoutHistory_tolerates_only_previous_query_witness :
    sampleStep.Run (withPreviousBranchError (repoRunner sampleExpected) (some "exit status 128"))
        sampleRepo
      = sampleStep.Run (withPreviousBranchError (repoRunner sampleExpected) none) sampleRepo ∧
    sampleStep.Run currentBranchFails sampleRepo = (some "exit status 128", sampleRepo) ∧
    sampleStep.Run (checkoutFailsFor "other") sampleRepo = (some "exit status 1", sampleRepo) ∧
    sampleStep.Run (checkoutFailsFor "feature") sampleRepo
      = (some "exit status 1", { sampleRepo with previous := "feature", current := "other" }) :=
  ⟨(preserveCheckoutHistory_tolerates_only_previous_query (repoRunner sampleExpected)
      sampleStep sampleRepo).1 (some "exit status 128"),
   (preserveCheckoutHistory_tolerates_only_previous_query currentBranchFails
      sampleStep sampleRepo).2.1 "other" "" "exit status 128" (by decide) (by decide) rfl,
   (preserveCheckoutHistory_tolerates_only_previous_query (checkoutFailsFor "other")
      sampleStep sampleRepo).2.2.1 "other" "feature" "exit status 1" sampleRepo
      (by decide) (by decide) rfl (by decide),
   (preserveCheckoutHistory_tolerates_only_previous_query (checkoutFailsFor "feature")
      sampleStep sampleRepo).2.2.2 "other" "feature" "exit status 1"
      { sampleRepo with previous := "feature", current := "other" }
      { sampleRepo with previous := "feature", current := "other" }
      (by decide) (by decide) rfl (by decide) (by decide)⟩

/-- C3: `setMainBranch b`: if the local-branch query fails, its error is
returned and the state (so the configured main branch) is unchanged; if `b` is
not a local branch the error is `there is no branch named "b"` and the state is
unchanged; if `b` is a local branch the result is that of the write
`Config.SetMainBranch b`, after which, in a store that returns what was
written, the main branch is `b`. -/
theorem setMainBranch_validates_branch {σ : Type} (txt : Text) (run : ProdRunner σ)
    (b : String) (s : σ)
    (hstore : (run.Config.SetMainBranch b s).1 = none →
      run.Config.MainBranch (run.Config.SetMainBranch b s).2 = b) :
    (∀ v err, run.Backend.HasLocalBranch b s = (v, some err) →
      setMainBranch txt b run s = (some err, s)) ∧
    (run.Backend.HasLocalBranch b s = (false, none) →
      setMainBranch txt b run s = (some ("there is no branch named " ++ txt.Quote b), s)) ∧
    (run.Backend.HasLocalBranch b s = (true, none) →
      setMainBranch txt b run s = run.Config.SetMainBranch b s ∧
      ((setMainBranch txt b run s).1 = none →
        run.Config.MainBranch (setMainBranch txt b run s).2 = b)) := by
  refine ⟨?_, ?_, ?_⟩
  · intro v err h
    simp only [setMainBranch, h]
  · intro h
    simp [setMainBranch, h]
  · intro h
    have heq : setMainBranch txt b run s = run.Config.SetMainBranch b s := by
      simp [setMainBranch, h]
    refine ⟨heq, ?_⟩
    rw [heq]
    exact hstore

/-- C3 at a concrete repository with the branches `main`, `feature`, `other`:
a failing query and the unknown branch `nope` leave the main branch `main`,
the local branch `other` becomes the main branch. -/
theorem setMainBranch_validates_branch_witness :
    setMainBranch sampleText "other" hasLocalBranchFails sampleRepo
      = (some "exit status 128", sampleRepo) ∧
    setMainBranch sampleText "nope" (repoRunner sampleExpected) sampleRepo
      = (some "there is no branch named \"nope\"", sampleRepo) ∧
    setMainBranch sampleText "other" (repoRunner sampleExpected) sampleRepo
      = (none, { sampleRepo with mainBranch := "other" }) :=
  ⟨(setMainBranch_validates_branch sampleText hasLocalBranchFails "other" sampleRepo
      (fun _ => rfl)).1 false "exit status 128" rfl,
   (setMainBranch_validates_branch sampleText (repoRunner sampleExpected) "nope" sampleRepo
      (fun _ => rfl)).2.1 (by decide),
   ((setMainBranch_validates_branch sampleText (repoRunner sampleExpected) "other" sampleRepo
      (fun _ => rfl)).2.2 (by decide)).1⟩

/-- C4 (with `config.ParseBool` modelled from the spec): for every text other
than `yes` and `no`, and either value of the global flag, `setPushHook` returns
the error `invalid argument: "<text>". Please provide either "yes" or "no"`
and leaves the state, so both push-hook settings, as it was.  The same holds
for any `ParseBool` and any text it does not parse. -/
theorem setPushHook_rejects_other_text {σ : Type} (txt : Text) (text : String)
    ( global : Bool) (run : ProdRunner σ) (s : σ) :
    (text ≠ "yes" → text ≠ "no" →
      setPushHook ParseBool txt text global run s
        = (some ("invalid argument: " ++ txt.Quote text
            ++ ". Please provide either \"yes\" or \"no\""), s)) ∧
    (∀ (parseBool : String → Bool × GoError) v err, parseBool text = (v, some err) →
      setPushHook parseBool txt text global run s
        = (some ("invalid argument: " ++ txt.Quote text
            ++ ". Please provide either \"yes\" or \"no\""), s)) := by
  refine ⟨?_, ?_⟩
  · intro hyes hno
    simp [setPushHook, ParseBool, hyes, hno]
  · intro parseBool v err h
    simp [setPushHook, h]

/-- C4 at the argument `maybe`, with the global flag set. -/
theorem setPushHook_rejects_other_text_witness :
    setPushHook ParseBool sampleText "maybe" true (repoRunner sampleExpected) sampleRepo
      = (some "invalid argument: \"maybe\". Please provide either \"yes\" or \"no\"",
         sampleRepo) :=
  (setPushHook_rejects_other_text sampleText "maybe" true (repoRunner sampleExpected)
    sampleRepo).1 (by decide) (by decide)

/-- C5: for an argument that parses to `v`, `setPushHook` calls exactly one
setter: `SetPushHookGlobally v` with the global flag, `SetPushHookLocally v`
without it; in the configuration store over a `Repo` the first changes only the
global setting and the second only the local one.  `printPushHook` reads
`PushHookGlobal` with the global flag and `PushHook` without it, prints the
value read (or returns the error of the read) and leaves the state as it was. -/
theorem setPushHook_writes_one_store {σ : Type} (parseBool : String → Bool × GoError)
    (txt : Text) (text : String) (v : Bool) (run : ProdRunner σ) (s : σ)
    (expected : String → String → String → Repo → String) (r : Repo)
    (hparse : parseBool text = (v, none)) :
    setPushHook parseBool txt text true run s = run.Config.SetPushHookGlobally v s ∧
    setPushHook parseBool txt text false run s = run.Config.SetPushHookLocally v s ∧
    setPushHook parseBool txt text true (repoRunner expected) r
      = (none, { r with pushHookGlobal := v }) ∧
    setPushHook parseBool txt text false (repoRunner expected) r
      = (none, { r with pushHookLocal := v }) ∧
    (∀ w, run.Config.PushHookGlobal s = (w, none) →
      printPushHook txt true run s = ⟨none, s, [txt.FormatBool w]⟩) ∧
    (∀ w err, run.Config.PushHookGlobal s = (w, some err) →
      printPushHook txt true run s = ⟨some err, s, []⟩) ∧
    (∀ w, run.Config.PushHook s = (w, none) →
      printPushHook txt false run s = ⟨none, s, [txt.FormatBool w]⟩) ∧
    (∀ w err, run.Config.PushHook s = (w, some err) →
      printPushHook txt false run s = ⟨some err, s, []⟩) := by
  refine ⟨?_, ?_, ?_, ?_, ?_, ?_, ?_, ?_⟩
  · simp [setPushHook, hparse]
  · simp [setPushHook, hparse]
  · simp [setPushHook, hparse, repoRunner, repoConfig]
  · simp [setPushHook, hparse, repoRunner, repoConfig]
  · intro w h
    simp [printPushHook, h]
  · intro w err h
    simp [printPushHook, h]
  · intro w h
    simp [printPushHook, h]
  · intro w err h
    simp [printPushHook, h]

/-- C5 at the argument `no`: with the global flag only the global setting of
`sampleRepo` changes, without it only the local one; and in a repository whose
local setting is `true` and whose global setting is `false`, the global flag
prints `no` and its absence prints `yes`. -/
theorem setPushHook_writes_one_store_witness :
    setPushHook ParseBool sampleText "no" true (repoRunner sampleExpected) sampleRepo
      = (none, { sampleRepo with pushHookGlobal := false }) ∧
    setPushHook ParseBool sampleText "no" false (repoRunner sampleExpected) sampleRepo
      = (none, { sampleRepo with pushHookLocal := false }) ∧
    (printPushHook sampleText true (repoRunner sampleExpected)
        { sampleRepo with pushHookGlobal := false }).stdout = ["no"] ∧
    (printPushHook sampleText false (repoRunner sampleExpected)
        { sampleRepo with pushHookGlobal := false }).stdout = ["yes"] := by
  have h := setPushHook_writes_one_store ParseBool sampleText "no" false
    (repoRunner sampleExpected) { sampleRepo with pushHookGlobal := false }
    sampleExpected sampleRepo (by decide)
  refine ⟨h.2.2.1, h.2.2.2.1, ?_, ?_⟩
  · rw [h.2.2.2.2.1 false rfl]
    decide
  · rw [h.2.2.2.2.2.2.1 true rfl]
    decide

/-- C6 (with `execute.LoadProdRunner` modelled from the spec): on the code,
whenever the load reports an error or `exit`, `configureMainBranch` and
`pushHook` return at once with what the load left, for every argument list:
they neither print nor write configuration.  The validation layer of the spec
refuses (`exit`) for every command other than continue/abort/skip/undo while a
RunState is persisted, so both commands leave the state as it was and print
nothing but the instructions of the refusal (nothing at all, and the
validation error returned, outside a git repository). -/
theorem config_commands_refuse_with_unfinished_state
    (expected : String → String → String → Repo → String) (instructions : List String)
    (command : String) (parseBool : String → Bool × GoError) (txt : Text)
    (args : List String) ( global debug : Bool) (s : Repo)
    (hcommand : command ∉ resumeCommands) (hstate : s.unfinishedRunState = true) :
    (∀ (σ : Type) (load : LoadArgs → σ → Loaded σ) (t : σ),
      ((load (configLoadArgs debug) t).err ≠ none ∨
        (load (configLoadArgs debug) t).exit = true) →
      configureMainBranch load txt args debug t
        = ⟨(load (configLoadArgs debug) t).err, (load (configLoadArgs debug) t).state,
           (load (configLoadArgs debug) t).stdout⟩ ∧
      pushHook load parseBool txt args global debug t
        = ⟨(load (configLoadArgs debug) t).err, (load (configLoadArgs debug) t).state,
           (load (configLoadArgs debug) t).stdout⟩) ∧
    (s.repositoryError = none →
      (LoadProdRunner expected instructions command (configLoadArgs debug) s).exit = true ∧
      configureMainBranch (LoadProdRunner expected instructions command) txt args debug s
        = ⟨none, s, instructions⟩ ∧
      pushHook (LoadProdRunner expected instructions command) parseBool txt args global debug s
        = ⟨none, s, instructions⟩) ∧
    (∀ err, s.repositoryError = some err →
      configureMainBranch (LoadProdRunner expected instructions command) txt args debug s
        = ⟨some err, s, []⟩ ∧
      pushHook (LoadProdRunner expected instructions command) parseBool txt args global debug s
        = ⟨some err, s, []⟩) := by
  have hgeneric : ∀ (σ : Type) (load : LoadArgs → σ → Loaded σ) (t : σ),
      ((load (configLoadArgs debug) t).err ≠ none ∨
        (load (configLoadArgs debug) t).exit = true) →
      configureMainBranch load txt args debug t
        = ⟨(load (configLoadArgs debug) t).err, (load (configLoadArgs debug) t).state,
           (load (configLoadArgs debug) t).stdout⟩ ∧
      pushHook load parseBool txt args global debug t
        = ⟨(load (configLoadArgs debug) t).err, (load (configLoadArgs debug) t).state,
           (load (configLoadArgs debug) t).stdout⟩ := by
    intro σ load t h
    have hcond : ((load (configLoadArgs debug) t).err.isSome
        || (load (configLoadArgs debug) t).exit) = true := by
      rcases h with h | h
      · rcases herr : (load (configLoadArgs debug) t).err with _ | e
        · exact absurd herr h
        · simp
      · simp [h]
    constructor
    · unfold configureMainBranch
      simp only [configLoadArgs] at hcond ⊢
      simp only [hcond, if_true]
    · unfold pushHook
      simp only [configLoadArgs] at hcond ⊢
      simp only [hcond, if_true]
  refine ⟨hgeneric, ?_, ?_⟩
  · intro hrepo
    have hexit :
        (LoadProdRunner expected instructions command (configLoadArgs debug) s).exit = true := by
      simp [LoadProdRunner, hrepo, hstate, hcommand]
    have h := hgeneric Repo (LoadProdRunner expected instructions command) s (Or.inr hexit)
    refine ⟨hexit, ?_, ?_⟩
    · rw [h.1]
      simp [LoadProdRunner, hrepo, hstate, hcommand]
    · rw [h.2]
      simp [LoadProdRunner, hrepo, hstate, hcommand]
  · intro err hrepo
    have herr :
        (LoadProdRunner expected instructions command (configLoadArgs debug) s).err ≠ none := by
      simp [LoadProdRunner, hrepo]
    have h := hgeneric Repo (LoadProdRunner expected instructions command) s (Or.inl herr)
    refine ⟨?_, ?_⟩
    · rw [h.1]
      simp [LoadProdRunner, hrepo]
    · rw [h.2]
      simp [LoadProdRunner, hrepo]

/-- C6 at a repository with a persisted RunState: `config main-branch other`
leaves the main branch `main` and `config push-hook` prints no setting, both
print the instructions; outside a git repository both return the validation
error; and with a load that reports an error `config main-branch other`
returns it without a write. -/
theorem config_commands_refuse_with_unfinished_state_witness :
    configureMainBranch (LoadProdRunner sampleExpected sampleInstructions "main-branch")
        sampleText ["other"] false pausedRepo
      = ⟨none, pausedRepo, sampleInstructions⟩ ∧
    pushHook (LoadProdRunner sampleExpected sampleInstructions "push-hook") ParseBool
        sampleText [] false false pausedRepo
      = ⟨none, pausedRepo, sampleInstructions⟩ ∧
    configureMainBranch (LoadProdRunner sampleExpected sampleInstructions "main-branch")
        sampleText ["other"] false pausedNoRepo
      = ⟨some "this is not a Git repository", pausedNoRepo, []⟩ ∧
    configureMainBranch (failingLoad "unsupported git version") sampleText ["other"] false
        sampleRepo
      = ⟨some "unsupported git version", sampleRepo, []⟩ :=
  ⟨((config_commands_refuse_with_unfinished_state sampleExpected sampleInstructions
      "main-branch" ParseBool sampleText ["other"] false false pausedRepo
      (by decide) rfl).2.1 rfl).2.1,
   ((config_commands_refuse_with_unfinished_state sampleExpected sampleInstructions
      "push-hook" ParseBool sampleText [] false false pausedRepo
      (by decide) rfl).2.1 rfl).2.2,
   ((config_commands_refuse_with_unfinished_state sampleExpected sampleInstructions
      "main-branch" ParseBool sampleText ["other"] false false pausedNoRepo
      (by decide) rfl).2.2 "this is not a Git repository" rfl).1,
   ((config_commands_refuse_with_unfinished_state sampleExpected sampleInstructions
      "main-branch" ParseBool sampleText ["other"] false false pausedRepo
      (by decide) rfl).1 Repo (failingLoad "unsupported git version") sampleRepo
      (Or.inl (by decide))).1⟩

/-- C7: `EnterPerennialBranches` returns the error of a failing branch listing
and leaves the state unchanged; otherwise it asks the dialog once, offering the
listed local branches without the main branch as options and the configured
perennial branches as defaults; it returns the error of a failing dialog and
leaves the state unchanged; otherwise its result is that of the write
`SetPerennialBranches` of the selection, after which, in a store that returns
what was written, the perennial branches are the selection. -/
theorem enterPerennialBranches_sets_selection {σ : Type}
    (multiSelect : MultiSelectArgs → List String × GoError) (txt : Text)
    (backend : BackendCommands σ) (mainBranch : String) (s : σ)
    (hstore : ∀ sel, (backend.Config.SetPerennialBranches sel s).1 = none →
      backend.Config.PerennialBranches (backend.Config.SetPerennialBranches sel s).2 = sel) :
    (∀ v err, backend.LocalBranchesWithoutMain mainBranch s = (v, some err) →
      EnterPerennialBranches multiSelect txt backend mainBranch s = (some err, s)) ∧
    (∀ options, backend.LocalBranchesWithoutMain mainBranch s = (options, none) →
      (∀ v err,
        multiSelect
          { Options := options
            Defaults := backend.Config.PerennialBranches s
            Message := perennialBranchesPrompt txt (backend.Config.PerennialBranches s) }
          = (v, some err) →
        EnterPerennialBranches multiSelect txt backend mainBranch s = (some err, s)) ∧
      (∀ sel,
        multiSelect
          { Options := options
            Defaults := backend.Config.PerennialBranches s
            Message := perennialBranchesPrompt txt (backend.Config.PerennialBranches s) }
          = (sel, none) →
        EnterPerennialBranches multiSelect txt backend mainBranch s
          = backend.Config.SetPerennialBranches sel s ∧
        ((EnterPerennialBranches multiSelect txt backend mainBranch s).1 = none →
          backend.Config.PerennialBranches
            (EnterPerennialBranches multiSelect txt backend mainBranch s).2 = sel))) := by
  refine ⟨?_, ?_⟩
  · intro v err h
    simp only [EnterPerennialBranches, h]
  · intro options h
    refine ⟨?_, ?_⟩
    · intro v err hd
      simp only [EnterPerennialBranches, h, hd]
    · intro sel hd
      have heq : EnterPerennialBranches multiSelect txt backend mainBranch s
          = backend.Config.SetPerennialBranches sel s := by
        simp only [EnterPerennialBranches, h, hd]
      refine ⟨heq, ?_⟩
      rw [heq]
      exact hstore sel

/-- C7 at a repository with the branches `main`, `feature`, `other` and the
perennial branch `other`: a failing listing and an interrupted dialog change
nothing; a user who selects every option makes `feature` and `other` perennial;
a user who keeps the defaults keeps `other`. -/
theorem enterPerennialBranches_sets_selection_witness :
    EnterPerennialBranches selectAll sampleText listingFails "main" perennialRepo
      = (some "exit status 128", perennialRepo) ∧
    EnterPerennialBranches selectAborted sampleText (repoBackend sampleExpected) "main"
        perennialRepo
      = (some "interrupt", perennialRepo) ∧
    EnterPerennialBranches selectAll sampleText (repoBackend sampleExpected) "main" perennialRepo
      = (none, { perennialRepo with perennialBranches := ["feature", "other"] }) ∧
    EnterPerennialBranches selectDefaults sampleText (repoBackend sampleExpected) "main"
        perennialRepo
      = (none, { perennialRepo with perennialBranches := ["other"] }) :=
  ⟨(enterPerennialBranches_sets_selection selectAll sampleText listingFails "main"
      perennialRepo (fun _ _ => rfl)).1 [] "exit status 128" rfl,
   ((enterPerennialBranches_sets_selection selectAborted sampleText (repoBackend sampleExpected)
      "main" perennialRepo (fun _ _ => rfl)).2 ["feature", "other"] (by decide)).1
      [] "interrupt" rfl,
   (((enterPerennialBranches_sets_selection selectAll sampleText (repoBackend sampleExpected)
      "main" perennialRepo (fun _ _ => rfl)).2 ["feature", "other"] (by decide)).2
      ["feature", "other"] rfl).1,
   (((enterPerennialBranches_sets_selection selectDefaults sampleText
      (repoBackend sampleExpected) "main" perennialRepo (fun _ _ => rfl)).2
      ["feature", "other"] (by decide)).2 ["other"] rfl).1⟩

/-- C8: when the branch queries succeed, `Fixture.Branches` returns the row
`(REPOSITORY, BRANCHES)` followed by the one row `("local", L)` if there is no
origin repo, the one row `("local, origin", L)` if there is one and `L = O`,
and the two rows `("local", L)`, `("origin", O)` otherwise, where `L` and `O`
are the developer and origin branch lists without `initial`, joined by `", "`. -/
theorem branches_table_rows {σ : Type} (env : Fixture σ) (s : σ) (localBranches : List String)
    (hdev : env.DevRepo.LocalBranchesMainFirst (env.DevRepo.MainBranch s) s
      = (localBranches, none)) :
    (env.OriginRepo = none →
      env.Branches s
        = (⟨[["REPOSITORY", "BRANCHES"],
             ["local", ", ".intercalate (stringslice.Remove localBranches "initial")]]⟩,
           none)) ∧
    (∀ originRepo originBranches, env.OriginRepo = some originRepo →
      originRepo.LocalBranchesMainFirst (env.DevRepo.MainBranch s) s = (originBranches, none) →
      (", ".intercalate (stringslice.Remove localBranches "initial")
          = ", ".intercalate (stringslice.Remove originBranches "initial") →
        env.Branches s
          = (⟨[["REPOSITORY", "BRANCHES"],
               ["local, origin",
                ", ".intercalate (stringslice.Remove localBranches "initial")]]⟩,
             none)) ∧
      (", ".intercalate (stringslice.Remove localBranches "initial")
          ≠ ", ".intercalate (stringslice.Remove originBranches "initial") →
        env.Branches s
          = (⟨[["REPOSITORY", "BRANCHES"],
               ["local", ", ".intercalate (stringslice.Remove localBranches "initial")],
               ["origin", ", ".intercalate (stringslice.Remove originBranches "initial")]]⟩,
             none))) := by
  refine ⟨?_, ?_⟩
  · intro hnone
    simp [Fixture.Branches, hdev, hnone, DataTable.AddRow]
  · intro originRepo originBranches hsome horigin
    refine ⟨?_, ?_⟩
    · intro heq
      simp [Fixture.Branches, hdev, hsome, horigin, heq, DataTable.AddRow]
    · intro hne
      simp [Fixture.Branches, hdev, hsome, horigin, hne, DataTable.AddRow]

/-- C8 at three fixtures: without origin; with an origin that has the same
branches apart from `initial`; with an origin that has one branch more. -/
theorem branches_table_rows_witness :
    noOriginFixture.Branches []
      = (⟨[["REPOSITORY", "BRANCHES"], ["local", "main, feature"]]⟩, none) ∧
    standardFixture.Branches []
      = (⟨[["REPOSITORY", "BRANCHES"], ["local, origin", "main, feature"]]⟩, none) ∧
    divergedFixture.Branches []
      = (⟨[["REPOSITORY", "BRANCHES"], ["local", "main, feature"],
           ["origin", "main, feature, hotfix"]]⟩, none) :=
  ⟨(branches_table_rows noOriginFixture [] ["main", "feature"] rfl).1 rfl,
   ((branches_table_rows standardFixture [] ["main", "feature"] rfl).2
      (scriptedRepo "origin" ["main", "initial", "feature"] none)
      ["main", "initial", "feature"] rfl rfl).1 (by decide),
   ((branches_table_rows divergedFixture [] ["main", "feature"] rfl).2
      (scriptedRepo "origin" ["main", "initial", "feature", "hotfix"] none)
      ["main", "initial", "feature", "hotfix"] rfl rfl).2 (by decide)⟩

/-- C9 fails on the code: a tag table whose second column is not `LOCATION`
(or whose first column is not `NAME`) is accepted and its tag is created,
because the check rejects a table only when both names are wrong. -/
theorem createTags_accepts_one_wrong_column :
    standardFixture.CreateTags [["NAME", "WHERE"], ["v1", "local"]] []
      = .ret (none, ["local: tag v1"]) ∧
    standardFixture.CreateTags [["TAG", "LOCATION"], ["v1", "origin"]] []
      = .ret (none, ["origin: tag v1"]) ∧
    standardFixture.CreateTags [["TAG", "WHERE"], ["v1", "local"]] []
      = .ret (some "tag table must have columns NAME and LOCATION", []) := by
  decide

/-- C10 fails on the code: for a commit with the locations `local` and
`origin`, the developer repository reports an error, the origin repository
succeeds, and `CreateCommits` returns nil. -/
theorem createCommits_loses_earlier_error :
    (localCommitFails.DevRepo.CreateCommit ⟨"feature", ["local", "origin"]⟩ []).1
      = some "exit status 1" ∧
    localCommitFails.CreateCommits sampleText [⟨"feature", ["local", "origin"]⟩] []
      = .ret (none, ["origin: commit on feature", "origin: checkout initial"]) := by
  decide

/-- The verbs of Go's `fmt` leave a text without `%` as it is, whatever the
fuel beyond its length. -/
theorem fmt_doPrintf_without_percent (l : List Char) (h : '%' ∉ l) (fuel : Nat)
    (hfuel : l.length ≤ fuel) : fmt.doPrintf fuel l = l := by
  induction l generalizing fuel with
  | nil => cases fuel <;> rfl
  | cons c cs ih =>
    cases fuel with
    | zero => simp at hfuel
    | succ n =>
      have hc : c ≠ '%' := fun hc => h (by simp [hc])
      have hcs : '%' ∉ cs := fun hcs => h (List.mem_cons_of_mem c hcs)
      have hlen : cs.length ≤ n := by simpa using hfuel
      simp [fmt.doPrintf, hc, ih hcs n hlen]

/-- The text `qa` is left as it is. -/
theorem fmt_doPrintf_without_percent_witness :
    '%' ∉ ['q', 'a'] ∧ fmt.doPrintf 2 ['q', 'a'] = ['q', 'a'] :=
  ⟨by decide, fmt_doPrintf_without_percent ['q', 'a'] (by decide) 2 (by decide)⟩

/-- Joining texts without `%` by `", "` gives a text without `%`. -/
theorem intercalate_go_without_percent (l : List String) (acc : String)
    (hacc : '%' ∉ acc.data) (h : ∀ b ∈ l, '%' ∉ b.data) :
    '%' ∉ (String.intercalate.go acc ", " l).data := by
  induction l generalizing acc with
  | nil => simpa [String.intercalate.go] using hacc
  | cons b bs ih =>
    simp only [String.intercalate.go]
    apply ih
    · have hb : '%' ∉ b.data := h b (by simp)
      have hsep : '%' ∉ (", " : String).data := by decide
      simp only [String.data_append, List.mem_append, not_or]
      exact ⟨⟨hacc, hsep⟩, hb⟩
    · intro c hc
      exact h c (List.mem_cons_of_mem b hc)

/-- The names `qa` and `staging`, joined after `main`, hold no `%`. -/
theorem intercalate_go_without_percent_witness :
    '%' ∉ (String.intercalate.go "main" ", " ["qa", "staging"]).data :=
  intercalate_go_without_percent ["qa", "staging"] "main" (by decide) (by decide)

/-- For perennial branch names without `%` the prompt is the text
`Please specify perennial branches:`, followed, when there are names, by
` (current value: `, the styled names joined by `", "`, and `)`. -/
theorem perennialBranchesPrompt_without_percent (boldCyan : String → String)
    (branches : List String) (h : ∀ b ∈ branches, '%' ∉ b.data) :
    perennialBranchesPrompt (fmtText boldCyan) branches
      = if branches = [] then "Please specify perennial branches:"
        else "Please specify perennial branches:"
          ++ (" (current value: " ++ boldCyan (", ".intercalate branches) ++ ")") := by
  cases branches with
  | nil => simp [perennialBranchesPrompt]
  | cons b bs =>
    have hjoin : '%' ∉ (", ".intercalate (b :: bs)).data := by
      simp only [String.intercalate]
      exact intercalate_go_without_percent bs b (h b (by simp))
        (fun c hc => h c (List.mem_cons_of_mem b hc))
    have hfmt : fmt.Sprintf (", ".intercalate (b :: bs)) = ", ".intercalate (b :: bs) := by
      have hrun := fmt_doPrintf_without_percent (", ".intercalate (b :: bs)).data hjoin
        (", ".intercalate (b :: bs)).length (le_of_eq rfl)
      unfold fmt.Sprintf
      rw [show (", ".intercalate (b :: bs)).toList = (", ".intercalate (b :: bs)).data from rfl,
        hrun]
    simp [perennialBranchesPrompt, fmtText, hfmt]

/-- The prompt for the perennial branches `qa` and `staging`, and the prompt
when there are none. -/
theorem perennialBranchesPrompt_without_percent_witness :
    perennialBranchesPrompt (fmtText id) ["qa", "staging"]
      = "Please specify perennial branches: (current value: qa, staging)" ∧
    perennialBranchesPrompt (fmtText id) [] = "Please specify perennial branches:" := by
  refine ⟨?_, ?_⟩
  · rw [perennialBranchesPrompt_without_percent id ["qa", "staging"] (by decide)]
    decide
  · rw [perennialBranchesPrompt_without_percent id [] (by simp)]
    decide

/-- C11 fails on the code: the joined names are the format of `Sprintf`, so a
`%` in a branch name is read as a verb.  For the perennial branches `qa` and
`100%` the prompt shows `qa, 100%!(NOVERB)` inside the styling, for
`release-%s` it shows `release-%!s(MISSING)`, and for `a%%b` it shows `a%b`;
with the styling that changes nothing the first prompt is not the text with
`qa, 100%` in it. -/
theorem perennialBranchesPrompt_reads_percent_as_verb :
    (∀ boldCyan : String → String,
      perennialBranchesPrompt (fmtText boldCyan) ["qa", "100%"]
        = "Please specify perennial branches:"
            ++ (" (current value: " ++ boldCyan "qa, 100%!(NOVERB)" ++ ")")) ∧
    (∀ boldCyan : String → String,
      perennialBranchesPrompt (fmtText boldCyan) ["release-%s"]
        = "Please specify perennial branches:"
            ++ (" (current value: " ++ boldCyan "release-%!s(MISSING)" ++ ")")) ∧
    (∀ boldCyan : String → String,
      perennialBranchesPrompt (fmtText boldCyan) ["a%%b"]
        = "Please specify perennial branches:"
            ++ (" (current value: " ++ boldCyan "a%b" ++ ")")) ∧
    perennialBranchesPrompt (fmtText id) ["qa", "100%"]
      ≠ "Please specify perennial branches: (current value: qa, 100%)" := by
  have h1 : fmt.Sprintf (", ".intercalate ["qa", "100%"]) = "qa, 100%!(NOVERB)" := by decide
  have h2 : fmt.Sprintf (", ".intercalate ["release-%s"]) = "release-%!s(MISSING)" := by decide
  have h3 : fmt.Sprintf (", ".intercalate ["a%%b"]) = "a%b" := by decide
  refine ⟨?_, ?_, ?_, ?_⟩
  · intro boldCyan
    simp [perennialBranchesPrompt, fmtText, h1]
  · intro boldCyan
    simp [perennialBranchesPrompt, fmtText, h2]
  · intro boldCyan
    simp [perennialBranchesPrompt, fmtText, h3]
  · decide

end GitTown
